import Mathlib

/-!
# BeDIT text editor (`src/main.c`): a shallow embedding

Representation choices, kept the same throughout the file.

* A byte (`char`, `unsigned char`) is a `Nat` below 256; `'\t'` is 9, `'\n'` is 10,
  `'\r'` is 13, `' '` is 32, `'\x1b'` is 27.
* C `int` values are `Int`; the editor never gets near `INT_MAX`, so wrap-around
  is not modelled.
* An `erow` keeps the `size` content bytes of `row->chars` as a list; `row->size`
  is the length of that list and the NUL terminator `row->chars[size]` is implicit.
  `row->render` is the list of the `rsize` bytes written by `editorUpdateRow`;
  `rsize` stays an explicit field because the code computes it from its own counter.
* The global `E` is passed explicitly.  `E.row` is a list, `E.numrows` its length.
* A function that dereferences `E.row[i]` for an `i` outside `[0, numrows)` has no
  defined behaviour in C; such a function returns `Option` and yields `none` there.
* `E.statusmsg` is the list of the bytes of the message in front of its NUL terminator,
  empty after `initEditor`; `E.statusmsg_time`, `E.filename` and `E.orig_termios` are not
  kept.
* The terminal input is a list of reads, each `some b` (a byte arrived) or `none` (the
  read timed out).
-/

namespace BeDIT

/-! ## Constants -/

def BEDIT_TAB_STOP : Nat := 8
def CURSOR_XBEGIN : Int := 1
def CURSOR_YBEGIN : Int := 3
def BEDIT_QUIT_TIMES : Int := 1

/-- Macro `CTRL_KEY(k)`, that is `k & 0x1f`: the low five bits of `k`. -/
def CTRL_KEY (k : Nat) : Nat := k % 32

def BACKSPACE : Nat := 127
def ARROW_LEFT : Nat := 200
def ARROW_RIGHT : Nat := 201
def ARROW_UP : Nat := 202
def ARROW_DOWN : Nat := 203
def DEL_KEY : Nat := 204
def HOME_KEY : Nat := 205
def END_KEY : Nat := 206
def PAGE_UP : Nat := 207
def PAGE_DOWN : Nat := 208

/-! ## Data -/

structure erow where
  rsize : Int
  chars : List Nat
  render : List Nat
deriving DecidableEq, Repr

/-- The field `row->size`: the number of content bytes. -/
def erow.size (row : erow) : Int := row.chars.length

structure editorConfig where
  cx : Int
  cy : Int
  rx : Int
  rowoff : Int
  coloff : Int
  screenrows : Int
  screencols : Int
  row : List erow
  dirty : Int
  statusmsg : List Nat := []
deriving DecidableEq, Repr

/-- The field `E.numrows`: the number of rows. -/
def editorConfig.numrows (E : editorConfig) : Int := E.row.length

/-- Read of `E.row[i]`; `none` when `i` is not the index of a row. -/
def rowAt (E : editorConfig) (i : Int) : Option erow :=
  if i < 0 then none else E.row.get? i.toNat

/-- Write of a whole row through a pointer `&E.row[i]`. -/
def setRow (E : editorConfig) (i : Int) (r : erow) : editorConfig :=
  { E with row := E.row.set i.toNat r }

/-- The contents of all lines, in order. -/
def contents (E : editorConfig) : List (List Nat) := E.row.map erow.chars

/-! ## Terminal -/

/-- One `read(STDIN_FILENO, &b, 1)` inside an escape sequence: the byte when the call
returns 1, nothing when it does not; the input that is left.  Input that has run out
keeps timing out. -/
def readByte : List (Option Nat) → Option Nat × List (Option Nat)
  | [] => (none, [])
  | x :: rest => (x, rest)

/-- The loop `while ((nread = read(STDIN_FILENO, &c, 1)) != 1)` of `editorReadKey`: reads
are repeated until one yields a byte.  On input without any byte the loop does not
end, which is `none`.  A read error that ends the process through `die` is not
modelled. -/
def waitByte : List (Option Nat) → Option (Nat × List (Option Nat))
  | [] => none
  | none :: rest => waitByte rest
  | some b :: rest => some (b, rest)

/-- Function `editorReadKey()`: the key returned and the input left unread. -/
def editorReadKey (input : List (Option Nat)) : Option (Nat × List (Option Nat)) :=
  match waitByte input with
  | none => none
  | some (c, in1) =>
    if c = 27 then
      match readByte in1 with
      | (none, in2) => some (27, in2)
      | (some s0, in2) =>
        match readByte in2 with
        | (none, in3) => some (27, in3)
        | (some s1, in3) =>
          if s0 = 91 then
            if 48 ≤ s1 ∧ s1 ≤ 57 then
              match readByte in3 with
              | (none, in4) => some (27, in4)
              | (some s2, in4) =>
                if s2 = 126 then
                  if s1 = 49 ∨ s1 = 55 then some (HOME_KEY, in4)
                  else if s1 = 51 then some (DEL_KEY, in4)
                  else if s1 = 52 ∨ s1 = 56 then some (END_KEY, in4)
                  else if s1 = 53 then some (PAGE_UP, in4)
                  else if s1 = 54 then some (PAGE_DOWN, in4)
                  else some (27, in4)
                else some (27, in4)
            else
              if s1 = 65 then some (ARROW_UP, in3)
              else if s1 = 66 then some (ARROW_DOWN, in3)
              else if s1 = 67 then some (ARROW_RIGHT, in3)
              else if s1 = 68 then some (ARROW_LEFT, in3)
              else if s1 = 72 then some (HOME_KEY, in3)
              else if s1 = 70 then some (END_KEY, in3)
              else some (27, in3)
          else if s0 = 48 then
            if s1 = 72 then some (HOME_KEY, in3)
            else if s1 = 70 then some (END_KEY, in3)
            else some (27, in3)
          else some (27, in3)
    else some (c, in1)

/-! ## Row operations -/

/-- Read of `row->chars[k]`.  For `0 ≤ k < size` it is a content byte and for
`k = size` the NUL terminator.  `k = -1` lies in front of the allocation; `pre`
stands for whatever byte the allocator left there. -/
def rowByte (pre : Nat) (row : erow) (k : Int) : Nat :=
  if k < 0 then pre else row.chars.getD k.toNat 0

/-- Body of the `for` loop of `editorRowCxToRx`, run for `j = j0, j0+1, ...`
(`n` iterations), on the running value `rx`. -/
def cxToRxLoop (pre : Nat) (row : erow) : Nat → Int → Int → Int
  | 0, _, rx => rx
  | n + 1, j, rx =>
    let rx1 :=
      if rowByte pre row (j - 1) = 9 then
        rx + ((BEDIT_TAB_STOP : Int) - 1) - (rx % (BEDIT_TAB_STOP : Int))
      else rx
    cxToRxLoop pre row n (j + 1) (rx1 + 1)

/-- Function `editorRowCxToRx(row, cx)`: the loop runs for `0 ≤ j < cx` and tests
`row->chars[j - 1]`. -/
def editorRowCxToRx (pre : Nat) (row : erow) (cx : Int) : Int :=
  cxToRxLoop pre row cx.toNat 0 0

/-- The inner `while (idx % BEDIT_TAB_STOP != 0) render[idx++] = ' ';` of
`editorUpdateRow`, on the pair `(idx, render)`.  The first argument bounds the
number of iterations; `tabPad_exit` shows that `BEDIT_TAB_STOP` of them always
reach the exit test. -/
def tabPad : Nat → Nat × List Nat → Nat × List Nat
  | 0, st => st
  | fuel + 1, (idx, render) =>
    if idx % BEDIT_TAB_STOP ≠ 0 then tabPad fuel (idx + 1, render ++ [32])
    else (idx, render)

/-- The second `for` loop of `editorUpdateRow` over the content bytes, on the pair
`(idx, render)`; every write is `render[idx++] = b`. -/
def renderLoop : List Nat → Nat × List Nat → Nat × List Nat
  | [], st => st
  | c :: cs, (idx, render) =>
    if c = 9 then renderLoop cs (tabPad BEDIT_TAB_STOP (idx + 1, render ++ [32]))
    else renderLoop cs (idx + 1, render ++ [c])

/-- Function `editorUpdateRow(row)`: the render loop from `idx = 0`; `rsize` is the final
`idx`.  The tab count of the first loop (`countTabs`) only sizes the allocation. -/
def editorUpdateRow (row : erow) : erow :=
  let st := renderLoop row.chars (0, [])
  { row with render := st.2, rsize := st.1 }

/-- The `len` bytes that start at `&row->chars[off]`, as a caller hands them to
`memcpy`; the buffer is the content followed by its NUL terminator. -/
def bytesAt (row : erow) (off len : Int) : List Nat :=
  ((row.chars ++ [0]).drop off.toNat).take len.toNat

/-- Function `editorInsertRow(at, s, len)`; `s` is the list of the `len` bytes copied.
The rows from `at` on move up by one place. -/
def editorInsertRow (E : editorConfig) (pos : Int) (s : List Nat) : editorConfig :=
  if pos < 0 ∨ pos > E.numrows then E
  else
    let r := editorUpdateRow { rsize := 0, chars := s, render := [] }
    { E with row := E.row.take pos.toNat ++ r :: E.row.drop pos.toNat,
             dirty := E.dirty + 1 }

/-- Function `editorDelRow(at)`: the rows after `at` move down by one place. -/
def editorDelRow (E : editorConfig) (pos : Int) : editorConfig :=
  if pos < 0 ∨ pos ≥ E.numrows then E
  else
    { E with row := E.row.take pos.toNat ++ E.row.drop (pos.toNat + 1),
             dirty := E.dirty + 1 }

/-- Function `editorRowInsertChar(row, at, c)`; the store `row->chars[at] = c` keeps the low
byte of the `int c`. -/
def editorRowInsertChar (row : erow) (pos : Int) (c : Nat) : erow :=
  let p := if pos < 0 ∨ pos > row.size then row.size else pos
  editorUpdateRow
    { row with chars := row.chars.take p.toNat ++ (c % 256) :: row.chars.drop p.toNat }

/-- Function `editorRowDelChar(row, at)` with `row = &E.row[i]`. -/
def editorRowDelChar (E : editorConfig) (i : Int) (pos : Int) : Option editorConfig :=
  match rowAt E i with
  | none => none
  | some row =>
    if pos < 0 ∨ pos ≥ row.size then some E
    else
      let row1 := editorUpdateRow
        { row with chars := row.chars.take pos.toNat ++ row.chars.drop (pos.toNat + 1) }
      some { setRow E i row1 with dirty := E.dirty + 1 }

/-! ## Editor operations -/

/-- Function `editorInsertChar(c)`. -/
def editorInsertChar (E : editorConfig) (c : Nat) : Option editorConfig :=
  let E1 := if E.cy - CURSOR_YBEGIN = E.numrows then editorInsertRow E E.numrows [] else E
  match rowAt E1 (E1.cy - CURSOR_YBEGIN) with
  | none => none
  | some row =>
    some { setRow E1 (E1.cy - CURSOR_YBEGIN)
             (editorRowInsertChar row (E1.cx - CURSOR_XBEGIN) c) with
           cx := E1.cx + 1, dirty := E1.dirty + 1 }

/-- Function `editorRowAppendString(row, s, len)` with `row = &E.row[i]`; `s` is the list
of the `len` bytes appended. -/
def editorRowAppendString (E : editorConfig) (i : Int) (s : List Nat) :
    Option editorConfig :=
  match rowAt E i with
  | none => none
  | some row =>
    some { setRow E i (editorUpdateRow { row with chars := row.chars ++ s }) with
           dirty := E.dirty + 1 }

/-- The last two statements of `editorInsertNewline`: `E.cy++; E.cx = CURSOR_XBEGIN;`. -/
def newlineCursor (E : editorConfig) : editorConfig :=
  { E with cy := E.cy + 1, cx := CURSOR_XBEGIN }

/-- Function `editorInsertNewline()`.  The second test of the `else if` reads
`E.row[E.cy - CURSOR_YBEGIN].size` only when `E.cx > CURSOR_XBEGIN` holds. -/
def editorInsertNewline (E : editorConfig) : Option editorConfig :=
  if E.cx - CURSOR_XBEGIN = 0 then
    some (newlineCursor (editorInsertRow E (E.cy - CURSOR_YBEGIN) []))
  else if E.cx > CURSOR_XBEGIN then
    match rowAt E (E.cy - CURSOR_YBEGIN) with
    | none => none
    | some row =>
      if E.cx - CURSOR_XBEGIN < row.size then
        let E1 := editorInsertRow E (E.cy - CURSOR_YBEGIN + 1)
          (bytesAt row (E.cx - CURSOR_XBEGIN) (row.size + 1 - E.cx - CURSOR_XBEGIN))
        match rowAt E1 (E1.cy - CURSOR_YBEGIN) with
        | none => none
        | some row1 =>
          let row2 := editorUpdateRow
            { row1 with chars := row1.chars.take (E1.cx - CURSOR_XBEGIN).toNat }
          some (newlineCursor (setRow E1 (E1.cy - CURSOR_YBEGIN) row2))
      else some (newlineCursor E)
  else some (newlineCursor E)

/-- Function `editorDelChar()`. -/
def editorDelChar (E : editorConfig) : Option editorConfig :=
  if E.cy - CURSOR_YBEGIN = E.numrows then some E
  else if E.cx = CURSOR_XBEGIN ∧ E.cy = CURSOR_YBEGIN then some E
  else if E.cx - CURSOR_XBEGIN > 0 then
    match editorRowDelChar E (E.cy - CURSOR_YBEGIN) (E.cx - CURSOR_XBEGIN - 1) with
    | none => none
    | some E1 => some { E1 with cx := E1.cx - 1 }
  else if E.cx = CURSOR_XBEGIN then
    match rowAt E (E.cy - CURSOR_YBEGIN), rowAt E (E.cy - CURSOR_YBEGIN - 1) with
    | some row, some prev =>
      let E1 := { E with cx := prev.size + CURSOR_XBEGIN }
      match editorRowAppendString E1 (E1.cy - CURSOR_YBEGIN - 1) row.chars with
      | none => none
      | some E2 =>
        let E3 := editorDelRow E2 (E2.cy - CURSOR_YBEGIN)
        if E3.cy - E3.rowoff > CURSOR_YBEGIN then some { E3 with cy := E3.cy - 1 }
        else some E3
    | _, _ => none
  else some E

/-! ## File i/o -/

/-- First loop of `editorRowsToString`: `totlen += E.row[j].size + 1`. -/
def totlenLoop : List erow → Int → Int
  | [], totlen => totlen
  | r :: rs, totlen => totlenLoop rs (totlen + (r.size + 1))

/-- Second loop of `editorRowsToString`: copy the row, then store `'\n'`. -/
def copyLoop : List erow → List Nat → List Nat
  | [], buf => buf
  | r :: rs, buf => copyLoop rs (buf ++ r.chars ++ [10])

/-- Function `editorRowsToString(&buflen)`: the buffer and the value stored in `*buflen`. -/
def editorRowsToString (E : editorConfig) : List Nat × Int :=
  (copyLoop E.row [], totlenLoop E.row 0)

/-- The successive results of the C library `getline` on a stream holding the given
bytes: each line runs up to and including the next `'\n'`; a last line without
`'\n'` is returned as it is; at end of file there is no further line. -/
def getlines : List Nat → List (List Nat)
  | [] => []
  | b :: bs =>
    if b = 10 then [10] :: getlines bs
    else
      match getlines bs with
      | [] => [[b]]
      | l :: ls => (b :: l) :: ls

/-- The loop `while (linelen > 0 && (line[linelen - 1] == '\n' || line[linelen] == '\r'))
linelen--;` of `editorOpen`, as a function of `linelen`; `buf` is the `getline`
buffer, the line followed by its NUL terminator. -/
def stripLineEnd (buf : List Nat) : Nat → Nat
  | 0 => 0
  | n + 1 =>
    if buf.getD n 0 = 10 ∨ buf.getD (n + 1) 0 = 13 then stripLineEnd buf n
    else n + 1

/-- One pass of the `while` loop body of `editorOpen` for the raw line `line`. -/
def editorOpenLine (E : editorConfig) (line : List Nat) : editorConfig :=
  editorInsertRow E E.numrows (line.take (stripLineEnd (line ++ [0]) line.length))

/-- Function `editorOpen(filename)` on a file holding the bytes `file`.  The file name and the
failure of `fopen` are not modelled. -/
def editorOpen (E : editorConfig) (file : List Nat) : editorConfig :=
  { (getlines file).foldl editorOpenLine E with dirty := 0 }

/-! ## Input -/

/-- The closing statements of `editorMoveCursor`: snap `E.cx` back to the row length. -/
def clampCx (E : editorConfig) : Option editorConfig :=
  if E.cy ≥ E.numrows + CURSOR_YBEGIN then
    some (if E.cx > CURSOR_XBEGIN then { E with cx := CURSOR_XBEGIN } else E)
  else
    match rowAt E (E.cy - CURSOR_YBEGIN) with
    | none => none
    | some row => some (if E.cx > row.size + 1 then { E with cx := row.size + 1 } else E)

/-- The `switch (key)` of `editorMoveCursor`. -/
def moveSwitch (E : editorConfig) (key : Nat) : Option editorConfig :=
  if key = ARROW_LEFT then
    if E.cx > CURSOR_XBEGIN + E.coloff then some { E with cx := E.cx - 1 }
    else if E.coloff > 0 ∧ E.cx - CURSOR_XBEGIN > 0 then
      some { E with coloff := E.coloff - 1, cx := E.cx - 1 }
    else if E.rowoff > 0 ∧ E.cy - CURSOR_YBEGIN > 0 then
      match rowAt E (E.cy - 1 - CURSOR_YBEGIN) with
      | none => none
      | some r => some { E with rowoff := E.rowoff - 1, cy := E.cy - 1, cx := r.size }
    else if E.cy > CURSOR_YBEGIN then
      match rowAt E (E.cy - 1 - CURSOR_YBEGIN) with
      | none => none
      | some r => some { E with cy := E.cy - 1, cx := r.size + CURSOR_XBEGIN }
    else some E
  else if key = ARROW_RIGHT then
    if E.cy > E.numrows + CURSOR_YBEGIN then some E
    else
      match rowAt E (E.cy - CURSOR_YBEGIN) with
      | none => none
      | some r =>
        if E.cx < r.size + 1 then some { E with cx := E.cx + 1 }
        else if E.cx = r.size + 1 ∧ E.cy < E.numrows then
          some { E with cy := E.cy + 1, cx := CURSOR_XBEGIN, coloff := 0 }
        else some E
  else if key = ARROW_UP then
    if E.cy > CURSOR_YBEGIN + E.rowoff then some { E with cy := E.cy - 1 }
    else if E.rowoff > 0 ∧ E.cy > 0 then
      some { E with rowoff := E.rowoff - 1, cy := E.cy - 1 }
    else some E
  else if key = ARROW_DOWN then
    if E.cy < E.numrows + CURSOR_YBEGIN - 1 then some { E with cy := E.cy + 1 }
    else some E
  else some E

/-- Function `editorMoveCursor(key)`. -/
def editorMoveCursor (E : editorConfig) (key : Nat) : Option editorConfig :=
  match moveSwitch E key with
  | none => none
  | some E1 => clampCx E1

/-- The loop `while (times--) editorMoveCursor(key);` for a count `times ≥ 0`. -/
def moveTimes (key : Nat) : Nat → editorConfig → Option editorConfig
  | 0, E => some E
  | n + 1, E =>
    match editorMoveCursor E key with
    | none => none
    | some E1 => moveTimes key n E1

/-- The decimal digits that `%d` prints for an `int`. -/
def formatInt (n : Int) : List Nat :=
  let digits := (Nat.toDigits 10 n.natAbs).map Char.toNat
  if n < 0 then 45 :: digits else digits

/-- Function `editorSetStatusMessage(fmt, ...)` for the already formatted text `msg`:
`vsnprintf` keeps at most `sizeof(E.statusmsg) - 1 = 79` bytes.  The time stamp is not
kept. -/
def editorSetStatusMessage (E : editorConfig) (msg : List Nat) : editorConfig :=
  { E with statusmsg := msg.take 79 }

/-- The warning of the quit key after formatting with `quit_times`:
`"\x1b[1;31m WARNING!! File has unsaved changes. Press CTRL+Q %d more time to quit."`. -/
def quitWarning (quit_times : Int) : List Nat :=
  ("\x1b[1;31m WARNING!! File has unsaved changes. Press CTRL+Q ".toList.map Char.toNat)
    ++ formatInt quit_times ++ (" more time to quit.".toList.map Char.toNat)

/-- The first statements of the paging case of `editorProcessKeypress`: `PAGE_UP` sets
`E.cy = E.rowoff + CURSOR_YBEGIN`; `PAGE_DOWN` sets `E.cy = E.rowoff + E.screenrows - 1`
and then `E.cy = E.numrows` if `E.cy > E.numrows`. -/
def pageStart (E : editorConfig) (c : Nat) : editorConfig :=
  if c = PAGE_UP then { E with cy := E.rowoff + CURSOR_YBEGIN }
  else
    let E0 := { E with cy := E.rowoff + E.screenrows - 1 }
    if E0.cy > E0.numrows then { E0 with cy := E0.numrows } else E0

/-- What one call of `editorProcessKeypress` leaves behind: the process has exited,
or it goes on with the state `E` and the static counter `quit_times`. -/
inductive Step where
  | exited : Step
  | running : editorConfig → Int → Step
deriving DecidableEq, Repr

/-- Function `editorProcessKeypress()` for the key `c`, the value of `editorReadKey()`
after its conversion to `unsigned char`.  `save` stands for `editorSave`, whose prompt
and file writes are outside this model.  The paging loop `while (times--)` is defined for `E.screenrows ≥ 0` only. -/
def editorProcessKeypress (save : editorConfig → editorConfig)
    (E : editorConfig) (quit_times : Int) (c : Nat) : Option Step :=
  if c = 13 then
    (editorInsertNewline E).map fun E1 => Step.running E1 BEDIT_QUIT_TIMES
  else if c = CTRL_KEY 113 then
    if E.dirty ≠ 0 ∧ quit_times > 0 then
      some (Step.running (editorSetStatusMessage E (quitWarning quit_times)) (quit_times - 1))
    else some Step.exited
  else if c = CTRL_KEY 115 then
    some (Step.running (save E) BEDIT_QUIT_TIMES)
  else if c = BACKSPACE ∨ c = CTRL_KEY 104 ∨ c = DEL_KEY then
    match (if c = DEL_KEY then editorMoveCursor E ARROW_RIGHT else some E) with
    | none => none
    | some E1 => (editorDelChar E1).map fun E2 => Step.running E2 BEDIT_QUIT_TIMES
  else if c = PAGE_DOWN ∨ c = PAGE_UP then
    let E1 := pageStart E c
    if E1.screenrows < 0 then none
    else
      (moveTimes (if c = PAGE_UP then ARROW_UP else ARROW_DOWN) E1.screenrows.toNat E1).map
        fun E2 => Step.running E2 BEDIT_QUIT_TIMES
  else if c = CTRL_KEY 108 ∨ c = 27 then
    some (Step.running E BEDIT_QUIT_TIMES)
  else if c = HOME_KEY then
    some (Step.running { E with cx := 1 } BEDIT_QUIT_TIMES)
  else if c = END_KEY then
    if E.cy < E.numrows then
      match rowAt E (E.cy - CURSOR_YBEGIN) with
      | none => none
      | some r => some (Step.running { E with cx := r.size + 1 } BEDIT_QUIT_TIMES)
    else some (Step.running E BEDIT_QUIT_TIMES)
  else if c = ARROW_DOWN ∨ c = ARROW_LEFT ∨ c = ARROW_RIGHT ∨ c = ARROW_UP then
    (editorMoveCursor E c).map fun E1 => Step.running E1 BEDIT_QUIT_TIMES
  else
    (editorInsertChar E c).map fun E1 => Step.running E1 BEDIT_QUIT_TIMES

/-! ## Output, init and the main loop -/

/-- Function `editScroll()`.  `pre` is the byte in front of the row buffer that
`editorRowCxToRx` reads. -/
def editScroll (pre : Nat) (E : editorConfig) : Option editorConfig :=
  let rxv : Option Int :=
    if E.cy - CURSOR_YBEGIN < E.numrows then
      (rowAt E (E.cy - CURSOR_YBEGIN)).map fun r => editorRowCxToRx pre r E.cx
    else some CURSOR_XBEGIN
  match rxv with
  | none => none
  | some rx =>
    let E1 := { E with rx := rx }
    let E2 := if E1.cy < E1.rowoff then { E1 with rowoff := E1.cy } else E1
    let E3 :=
      if E2.cy ≥ E2.rowoff + E2.screenrows then
        { E2 with rowoff := E2.cy - E2.screenrows + 1 }
      else E2
    let E4 := if E3.rx < E3.coloff then { E3 with coloff := E3.rx } else E3
    let E5 :=
      if E4.rx ≥ E4.coloff + E4.screencols then
        { E4 with coloff := E4.rx - E4.screencols + 1 }
      else E4
    some E5

/-- The state changes of `editorRefreshScreen()`: `editScroll`, then the window size
`rows × cols` reported by `getWindowSize` with `E.screenrows -= 2`.  The bytes written
to the terminal are not modelled. -/
def editorRefreshScreen (pre : Nat) (rows cols : Int) (E : editorConfig) :
    Option editorConfig :=
  (editScroll pre E).map fun E1 => { E1 with screenrows := rows - 2, screencols := cols }

/-- Function `initEditor()` in a window of `rows × cols`. -/
def initEditor (rows cols : Int) : editorConfig :=
  { cx := CURSOR_XBEGIN, cy := CURSOR_YBEGIN, rx := CURSOR_XBEGIN, rowoff := 0, coloff := 0,
    screenrows := rows - 2, screencols := cols, row := [], dirty := 0 }

/-- The loop of `main`, `editorRefreshScreen(); editorProcessKeypress();`, run for the
given keys in turn; it stops when the process has exited. -/
def runKeys (save : editorConfig → editorConfig) (pre : Nat) (rows cols : Int) :
    List Nat → Step → Option Step
  | [], st => some st
  | _ :: _, Step.exited => some Step.exited
  | k :: ks, Step.running E q =>
    match editorRefreshScreen pre rows cols E with
    | none => none
    | some E1 =>
      match editorProcessKeypress save E1 q k with
      | none => none
      | some st => runKeys save pre rows cols ks st

/-- The calls `editorInsertChar(c1); ...; editorInsertChar(cn)` in sequence. -/
def typeChars : List Nat → editorConfig → Option editorConfig
  | [], E => some E
  | c :: cs, E =>
    match editorInsertChar E c with
    | none => none
    | some E1 => typeChars cs E1

/-! ## Reference functions, written from the specification's wording -/

/-- Tab expansion rule of the specification for the render column: scanning left to
right from render column `r`, a non-tab character maps `r` to `r + 1` and a tab maps
`r` to `r + (8 - r % 8)`. -/
def renderColumnFrom : List Nat → Nat → Nat
  | [], r => r
  | c :: cs, r => if c = 9 then renderColumnFrom cs (r + (8 - r % 8)) else renderColumnFrom cs (r + 1)

/-- The specification's `renderColumnOf(line, col)`: scan the first `col` characters
from render column 0. -/
def renderColumnOf (line : List Nat) (col : Nat) : Nat :=
  renderColumnFrom (line.take col) 0

/-- Tab expansion of the specification for the render form: copy each non-tab
character, replace each tab by `8 - (k % 8)` spaces where `k` is the length of the
render produced so far. -/
def expandTabsFrom : List Nat → List Nat → List Nat
  | [], out => out
  | c :: cs, out =>
    if c = 9 then expandTabsFrom cs (out ++ List.replicate (8 - out.length % 8) 32)
    else expandTabsFrom cs (out ++ [c])

/-- The tab expansion of a whole line. -/
def expandTabs (s : List Nat) : List Nat := expandTabsFrom s []

/-- The column at which the specification's `insertChar` stores the character:
`at` itself when `0 ≤ at ≤ length`, and `length` for every other `at`. -/
def insertColumn (size : Nat) (pos : Int) : Nat :=
  if 0 ≤ pos ∧ pos ≤ (size : Int) then pos.toNat else size

/-- The specification's `serialize()`: every line followed by one `'\n'`, the last
line included. -/
def serializeRef : List (List Nat) → List Nat
  | [] => []
  | l :: ls => l ++ [10] ++ serializeRef ls

/-- Sum of `size + 1` over the lines. -/
def totalLength : List (List Nat) → Nat
  | [] => 0
  | l :: ls => (l.length + 1) + totalLength ls

/-- Cursor validity as the specification states it: the logical line index
`E.cy - CURSOR_YBEGIN` lies in `[0, numrows]` and the logical column
`E.cx - CURSOR_XBEGIN` lies in `[0, length of that line]`, which is column 0 on the line
one past the end. -/
def cursorValid (E : editorConfig) : Prop :=
  0 ≤ E.cy - CURSOR_YBEGIN ∧ E.cy - CURSOR_YBEGIN ≤ E.numrows ∧
  0 ≤ E.cx - CURSOR_XBEGIN ∧
  E.cx - CURSOR_XBEGIN ≤
    (match rowAt E (E.cy - CURSOR_YBEGIN) with
     | some r => r.size
     | none => 0)

instance (E : editorConfig) : Decidable (cursorValid E) :=
  inferInstanceAs (Decidable (_ ∧ _ ∧ _ ∧ _))

/-- A row holding the content `s`, as `editorInsertRow` builds it. -/
def mkRow (s : List Nat) : erow := editorUpdateRow { rsize := 0, chars := s, render := [] }

/-! ## Rows and contents -/

theorem mkRow_chars (s : List Nat) : (mkRow s).chars = s := rfl

theorem rowAt_nat (E : editorConfig) (i : Nat) : rowAt E (i : Int) = E.row[i]? := by
  simp [rowAt]

theorem contents_setRow (E : editorConfig) (i : Nat) (r : erow) :
    contents (setRow E (i : Int) r) = (contents E).set i r.chars := by
  simp [contents, setRow, List.map_set]

theorem contents_getElem? (E : editorConfig) (i : Nat) :
    (contents E)[i]? = (E.row[i]?).map erow.chars := by
  simp [contents]

theorem set_of_getElem? {α : Type} (l : List α) (i : Nat) (a : α) (h : l[i]? = some a) :
    l.set i a = l := by
  apply List.ext_getElem?
  intro j
  by_cases hj : i = j
  · subst hj
    have hlt : i < l.length := (List.getElem?_eq_some.mp h).1
    rw [List.getElem?_set_self hlt, h]
  · rw [List.getElem?_set_ne hj]

theorem editorUpdateRow_chars (row : erow) : (editorUpdateRow row).chars = row.chars := rfl

theorem editorInsertRow_out_of_range (E : editorConfig) (pos : Int) (s : List Nat)
    (h : pos < 0 ∨ pos > E.numrows) : editorInsertRow E pos s = E := by
  unfold editorInsertRow
  rw [if_pos h]

theorem editorInsertRow_in_range (E : editorConfig) (pos : Int) (s : List Nat)
    (h : 0 ≤ pos ∧ pos ≤ E.numrows) :
    editorInsertRow E pos s
      = { E with row := E.row.take pos.toNat ++ mkRow s :: E.row.drop pos.toNat,
                 dirty := E.dirty + 1 } := by
  have hn : ¬ (pos < 0 ∨ pos > E.numrows) := by omega
  unfold editorInsertRow
  rw [if_neg hn]
  rfl

theorem contents_editorInsertRow (E : editorConfig) (pos : Int) (s : List Nat)
    (h : 0 ≤ pos ∧ pos ≤ E.numrows) :
    contents (editorInsertRow E pos s)
      = (contents E).take pos.toNat ++ [s] ++ (contents E).drop pos.toNat := by
  rw [editorInsertRow_in_range E pos s h]
  simp [contents, mkRow_chars, List.map_take, List.map_drop]

theorem numrows_editorInsertRow (E : editorConfig) (pos : Int) (s : List Nat)
    (h : 0 ≤ pos ∧ pos ≤ E.numrows) :
    (editorInsertRow E pos s).numrows = E.numrows + 1 := by
  have hle : pos.toNat ≤ E.row.length := by
    have := h.2
    simp only [editorConfig.numrows] at this
    omega
  rw [editorInsertRow_in_range E pos s h]
  simp only [editorConfig.numrows, List.length_append, List.length_take, List.length_cons,
    List.length_drop]
  omega

theorem contents_editorInsertRow_end (E : editorConfig) (l : List Nat) :
    contents (editorInsertRow E E.numrows l) = contents E ++ [l] := by
  have hr : 0 ≤ E.numrows ∧ E.numrows ≤ E.numrows := by
    simp only [editorConfig.numrows]; omega
  rw [contents_editorInsertRow E E.numrows l hr]
  have : E.numrows.toNat = (contents E).length := by simp [editorConfig.numrows, contents]
  simp [this]

/-! ## C1: Enter in the middle of a line -/

/-- C1 (code bug). Enter in the middle of a line drops the last byte of the remainder:
`editorInsertNewline` passes `row->size + 1 - E.cx - CURSOR_XBEGIN` as the length, one
less than the `size - column` bytes that follow the cursor.  After loading the one-line
file `abcd` and pressing the right arrow twice, the cursor is at column 2; Enter then
leaves the lines `ab` and `c`, and the `d` is gone. -/
theorem editorInsertNewline_split_loses_last_byte :
    runKeys id 0 24 80 [ARROW_RIGHT, ARROW_RIGHT]
        (Step.running (editorOpen (initEditor 24 80) [97, 98, 99, 100, 10]) BEDIT_QUIT_TIMES)
      = some (Step.running
          { cx := 3, cy := 3, rx := 2, rowoff := 0, coloff := 0, screenrows := 22,
            screencols := 80, row := [mkRow [97, 98, 99, 100]], dirty := 0 } 1) ∧
    editorInsertNewline
        { cx := 3, cy := 3, rx := 2, rowoff := 0, coloff := 0, screenrows := 22,
          screencols := 80, row := [mkRow [97, 98, 99, 100]], dirty := 0 }
      = some
          { cx := 1, cy := 4, rx := 2, rowoff := 0, coloff := 0, screenrows := 22,
            screencols := 80, row := [mkRow [97, 98], mkRow [99]], dirty := 1 } := by
  decide

/-! ## C2: the render column -/

/-- C2 (code bug). `editorRowCxToRx` tests `row->chars[j - 1]`, the byte before the one
it steps over, so a tab is accounted for one column late and the first test reads the
byte in front of the buffer.  On the line that is a single tab it returns 1 for column 1
where the expansion rule gives 8; on a tab followed by `b` it never returns the 9 of the
rule for column 2, whatever the byte in front of the buffer is. -/
theorem editorRowCxToRx_tests_previous_byte :
    editorRowCxToRx 0 (mkRow [9]) 1 = 1 ∧ renderColumnOf [9] 1 = 8 ∧
    editorRowCxToRx 0 (mkRow [9, 98]) 2 = 8 ∧ renderColumnOf [9, 98] 2 = 9 ∧
    (∀ pre : Nat, editorRowCxToRx pre (mkRow [9, 98]) 2 ≠ (renderColumnOf [9, 98] 2 : Int)) := by
  refine ⟨by decide, by decide, by decide, by decide, ?_⟩
  intro pre
  by_cases hp : pre = 9
  · subst hp; decide
  · have h : editorRowCxToRx pre (mkRow [9, 98]) 2 = 8 := by
      simp [editorRowCxToRx, cxToRxLoop, rowByte, hp, mkRow, editorUpdateRow, BEDIT_TAB_STOP]
    rw [h]; decide

/-! ## C3: the render form -/

theorem tabPad_eq (fuel : Nat) : ∀ (idx : Nat) (r : List Nat),
    (8 - idx % 8) % 8 ≤ fuel →
    tabPad fuel (idx, r) =
      (idx + (8 - idx % 8) % 8, r ++ List.replicate ((8 - idx % 8) % 8) 32) := by
  induction fuel with
  | zero =>
    intro idx r h
    have h0 : (8 - idx % 8) % 8 = 0 := by omega
    simp [tabPad, h0]
  | succ n ih =>
    intro idx r h
    by_cases hz : idx % 8 = 0
    · have h0 : (8 - idx % 8) % 8 = 0 := by omega
      simp [tabPad, BEDIT_TAB_STOP, hz]
    · have hstep : (8 - (idx + 1) % 8) % 8 ≤ n := by omega
      have hk : (8 - idx % 8) % 8 = (8 - (idx + 1) % 8) % 8 + 1 := by omega
      simp only [tabPad, BEDIT_TAB_STOP, ne_eq, hz, not_false_eq_true, if_true]
      rw [ih (idx + 1) (r ++ [32]) hstep, hk, List.replicate_succ]
      simp
      omega

/-- The padding loop leaves by its own test: after `BEDIT_TAB_STOP` iterations at
most, `idx` is a multiple of the tab stop. -/
theorem tabPad_exit (idx : Nat) (r : List Nat) :
    (tabPad BEDIT_TAB_STOP (idx, r)).1 % BEDIT_TAB_STOP = 0 := by
  have h := tabPad_eq 8 idx r (by omega)
  simp only [BEDIT_TAB_STOP, h]
  omega

theorem renderLoop_eq (cs : List Nat) : ∀ (r : List Nat),
    renderLoop cs (r.length, r) = ((expandTabsFrom cs r).length, expandTabsFrom cs r) := by
  induction cs with
  | nil => intro r; simp [renderLoop, expandTabsFrom]
  | cons c cs ih =>
    intro r
    by_cases hc : c = 9
    · have hpad := tabPad_eq 8 (r.length + 1) (r ++ [32]) (by omega)
      have hk : 8 - r.length % 8 = (8 - (r.length + 1) % 8) % 8 + 1 := by omega
      have hl : (r ++ List.replicate (8 - r.length % 8) 32).length
          = r.length + 1 + (8 - (r.length + 1) % 8) % 8 := by
        simp; omega
      have hr : r ++ [32] ++ List.replicate ((8 - (r.length + 1) % 8) % 8) 32
          = r ++ List.replicate (8 - r.length % 8) 32 := by
        rw [hk, List.replicate_succ]; simp
      simp only [renderLoop, expandTabsFrom, hc, if_true, BEDIT_TAB_STOP, hpad]
      rw [hr, ← hl]
      exact ih _
    · have h := ih (r ++ [c])
      simp only [List.length_append, List.length_singleton] at h
      simp only [renderLoop, expandTabsFrom, hc, if_false]
      exact h

theorem expandTabsFrom_no_tab (cs : List Nat) : ∀ (out : List Nat),
    9 ∉ out → 9 ∉ expandTabsFrom cs out := by
  induction cs with
  | nil => intro out h; simpa [expandTabsFrom] using h
  | cons c cs ih =>
    intro out h
    by_cases hc : c = 9
    · simp only [expandTabsFrom, hc, if_true]
      apply ih
      simp [h, List.mem_replicate]
    · simp only [expandTabsFrom, hc, if_false]
      apply ih
      simp [h]
      exact fun h9 => hc h9.symm

theorem editorUpdateRow_render_eq (row : erow) :
    (editorUpdateRow row).render = expandTabs row.chars := by
  have h := renderLoop_eq row.chars []
  simp only [List.length_nil] at h
  simp [editorUpdateRow, expandTabs, h]

theorem editorUpdateRow_rsize_eq (row : erow) :
    (editorUpdateRow row).rsize = ((editorUpdateRow row).render.length : Int) := by
  have h := renderLoop_eq row.chars []
  simp only [List.length_nil] at h
  simp [editorUpdateRow, h]

/-- C3. After `editorUpdateRow` the render sequence is the tab expansion of the
content (each non-tab byte copied, each tab replaced by `8 - k % 8` spaces, `k` the
render length so far, hence at least one space and a length that is a multiple of 8);
the render holds no tab, `rsize` is its length and the content is untouched. -/
theorem editorUpdateRow_render (row : erow) :
    (editorUpdateRow row).render = expandTabs row.chars ∧
    9 ∉ (editorUpdateRow row).render ∧
    (editorUpdateRow row).rsize = ((editorUpdateRow row).render.length : Int) ∧
    (editorUpdateRow row).chars = row.chars ∧
    (∀ k : Nat, 1 ≤ 8 - k % 8 ∧ (k + (8 - k % 8)) % 8 = 0) := by
  refine ⟨editorUpdateRow_render_eq row, ?_, editorUpdateRow_rsize_eq row, rfl, ?_⟩
  · rw [editorUpdateRow_render_eq]
    exact expandTabsFrom_no_tab _ [] (by simp)
  · intro k; omega

/-! ## C4: serialize and load -/

theorem copyLoop_eq (rows : List erow) : ∀ buf : List Nat,
    copyLoop rows buf = buf ++ serializeRef (rows.map erow.chars) := by
  induction rows with
  | nil => intro buf; simp [copyLoop, serializeRef]
  | cons r rs ih => intro buf; simp [copyLoop, serializeRef, ih]

theorem totlenLoop_eq (rows : List erow) : ∀ t : Int,
    totlenLoop rows t = t + (totalLength (rows.map erow.chars) : Int) := by
  induction rows with
  | nil => intro t; simp [totlenLoop, totalLength]
  | cons r rs ih =>
    intro t
    simp only [totlenLoop, totalLength, List.map_cons, ih, erow.size]
    push_cast
    omega

theorem serializeRef_length (ls : List (List Nat)) :
    (serializeRef ls).length = totalLength ls := by
  induction ls with
  | nil => rfl
  | cons l ls ih => simp [serializeRef, totalLength, ih]; omega

theorem getlines_line (l : List Nat) (rest : List Nat) (h : 10 ∉ l) :
    getlines (l ++ [10] ++ rest) = (l ++ [10]) :: getlines rest := by
  induction l with
  | nil => simp [getlines]
  | cons b bs ih =>
    have hb : b ≠ 10 := fun e => h (by simp [e])
    have hbs : 10 ∉ bs := fun e => h (by simp [e])
    have hstep : getlines (b :: (bs ++ [10] ++ rest))
        = (match getlines (bs ++ [10] ++ rest) with
           | [] => [[b]]
           | l :: ls => (b :: l) :: ls) := by
      simp only [getlines, if_neg hb]
    have hcons : (b :: bs) ++ [10] ++ rest = b :: (bs ++ [10] ++ rest) := by simp
    rw [hcons, hstep, ih hbs]
    simp

theorem getlines_serializeRef (ls : List (List Nat)) (h : ∀ l ∈ ls, 10 ∉ l) :
    getlines (serializeRef ls) = ls.map (fun l => l ++ [10]) := by
  induction ls with
  | nil => rfl
  | cons l ls ih =>
    simp only [serializeRef, List.map_cons]
    rw [getlines_line l _ (h l (by simp)), ih (fun m hm => h m (by simp [hm]))]

theorem stripLineEnd_line (l : List Nat) (h : 10 ∉ l) :
    stripLineEnd (l ++ [10] ++ [0]) (l ++ [10]).length = l.length := by
  have hlen : (l ++ [10]).length = l.length + 1 := by simp
  have hnl : (l ++ [10] ++ [0]).getD l.length 0 = 10 := by
    have : (l ++ [10] ++ [0])[l.length]? = some 10 := by
      rw [List.append_assoc, List.getElem?_append_right (Nat.le_refl _)]
      simp
    simp only [List.getD_eq_getElem?_getD, this, Option.getD_some]
  rw [hlen, stripLineEnd, if_pos (Or.inl hnl)]
  cases hl : l.length with
  | zero => rfl
  | succ m =>
    have hm : m < l.length := by omega
    have h1 : (l ++ [10] ++ [0]).getD m 0 ≠ 10 := by
      have : (l ++ [10] ++ [0])[m]? = some l[m] := by
        rw [List.append_assoc, List.getElem?_append_left hm, List.getElem?_eq_getElem hm]
      simp only [List.getD_eq_getElem?_getD, this, Option.getD_some]
      intro e
      exact h (e ▸ List.getElem_mem hm)
    have h2 : (l ++ [10] ++ [0]).getD (m + 1) 0 ≠ 13 := by
      rw [← hl, hnl]; decide
    rw [stripLineEnd, if_neg (by tauto)]

theorem editorOpenLine_line (E : editorConfig) (l : List Nat) (h : 10 ∉ l) :
    editorOpenLine E (l ++ [10]) = editorInsertRow E E.numrows l := by
  unfold editorOpenLine
  rw [stripLineEnd_line l h]
  simp

theorem contents_openLoop (ls : List (List Nat)) : ∀ E : editorConfig,
    (∀ l ∈ ls, 10 ∉ l) →
    contents ((ls.map (fun l => l ++ [10])).foldl editorOpenLine E) = contents E ++ ls := by
  induction ls with
  | nil => intro E _; simp
  | cons l ls ih =>
    intro E h
    simp only [List.map_cons, List.foldl_cons]
    rw [editorOpenLine_line E l (h l (by simp)), ih _ (fun m hm => h m (by simp [hm])),
      contents_editorInsertRow_end]
    simp

/-- C4. For a document whose lines hold no `'\n'` and no `'\r'`, `editorRowsToString`
yields every line followed by exactly one `'\n'` (the last one too), reports the sum of
`size + 1` as the length, and the line loop of `editorOpen` run on those bytes from an
empty document gives back exactly the original lines. -/
theorem serialize_load_roundtrip (E E0 : editorConfig)
    (hclean : ∀ l ∈ contents E, 10 ∉ l ∧ 13 ∉ l) (hfresh : E0.row = []) :
    (editorRowsToString E).1 = serializeRef (contents E) ∧
    (editorRowsToString E).1.length = totalLength (contents E) ∧
    (editorRowsToString E).2 = (totalLength (contents E) : Int) ∧
    contents (editorOpen E0 (editorRowsToString E).1) = contents E := by
  have hser : (editorRowsToString E).1 = serializeRef (contents E) := by
    simp [editorRowsToString, copyLoop_eq, contents]
  refine ⟨hser, ?_, ?_, ?_⟩
  · rw [hser, serializeRef_length]
  · simp [editorRowsToString, totlenLoop_eq, contents]
  · have hnl : ∀ l ∈ contents E, 10 ∉ l := fun l hl => (hclean l hl).1
    have h0 : contents E0 = [] := by simp [contents, hfresh]
    have hopen : contents (editorOpen E0 (serializeRef (contents E)))
        = contents ((getlines (serializeRef (contents E))).foldl editorOpenLine E0) := rfl
    rw [hser, hopen, getlines_serializeRef _ hnl, contents_openLoop _ _ hnl, h0]
    simp

theorem serialize_load_roundtrip_witness :
    (editorRowsToString
        { cx := 1, cy := 3, rx := 1, rowoff := 0, coloff := 0, screenrows := 22,
          screencols := 80, row := [mkRow [97, 98, 99], mkRow [100, 101, 102]],
          dirty := 0 }).1 = [97, 98, 99, 10, 100, 101, 102, 10] ∧
    contents (editorOpen
        { cx := 1, cy := 3, rx := 1, rowoff := 0, coloff := 0, screenrows := 22,
          screencols := 80, row := [], dirty := 0 }
        [97, 98, 99, 10, 100, 101, 102, 10]) = [[97, 98, 99], [100, 101, 102]] :=
  have h := serialize_load_roundtrip
    { cx := 1, cy := 3, rx := 1, rowoff := 0, coloff := 0, screenrows := 22,
      screencols := 80, row := [mkRow [97, 98, 99], mkRow [100, 101, 102]], dirty := 0 }
    { cx := 1, cy := 3, rx := 1, rowoff := 0, coloff := 0, screenrows := 22,
      screencols := 80, row := [], dirty := 0 }
    (by decide) rfl
  ⟨h.1, h.2.2.2⟩

/-! ## C5: inserting a row -/

/-- C5. Inserting a row with `editorInsertRow(at, text)` changes nothing when `at < 0`
or `at > numrows`; otherwise the line contents become `old[0..at) ++ [text] ++ old[at..n)`,
the line count is `n + 1` and the dirty counter grows by exactly one. -/
theorem editorInsertRow_bounds_shift (E : editorConfig) (pos : Int) (s : List Nat) :
    ((pos < 0 ∨ pos > E.numrows) → editorInsertRow E pos s = E) ∧
    ((0 ≤ pos ∧ pos ≤ E.numrows) →
      contents (editorInsertRow E pos s)
        = (contents E).take pos.toNat ++ [s] ++ (contents E).drop pos.toNat ∧
      (editorInsertRow E pos s).numrows = E.numrows + 1 ∧
      (editorInsertRow E pos s).dirty = E.dirty + 1) := by
  constructor
  · intro h
    exact editorInsertRow_out_of_range E pos s h
  · intro h
    refine ⟨contents_editorInsertRow E pos s h, numrows_editorInsertRow E pos s h, ?_⟩
    rw [editorInsertRow_in_range E pos s h]

theorem editorInsertRow_bounds_shift_witness :
    editorInsertRow
        { cx := 1, cy := 3, rx := 1, rowoff := 0, coloff := 0, screenrows := 22,
          screencols := 80, row := [mkRow [97], mkRow [99]], dirty := 5 } 3 [98]
      = { cx := 1, cy := 3, rx := 1, rowoff := 0, coloff := 0, screenrows := 22,
          screencols := 80, row := [mkRow [97], mkRow [99]], dirty := 5 } ∧
    contents (editorInsertRow
        { cx := 1, cy := 3, rx := 1, rowoff := 0, coloff := 0, screenrows := 22,
          screencols := 80, row := [mkRow [97], mkRow [99]], dirty := 5 } 1 [98])
      = [[97], [98], [99]] ∧
    (editorInsertRow
        { cx := 1, cy := 3, rx := 1, rowoff := 0, coloff := 0, screenrows := 22,
          screencols := 80, row := [mkRow [97], mkRow [99]], dirty := 5 } 1 [98]).dirty = 6 :=
  ⟨(editorInsertRow_bounds_shift
      { cx := 1, cy := 3, rx := 1, rowoff := 0, coloff := 0, screenrows := 22,
        screencols := 80, row := [mkRow [97], mkRow [99]], dirty := 5 } 3 [98]).1
      (by decide),
   ((editorInsertRow_bounds_shift
      { cx := 1, cy := 3, rx := 1, rowoff := 0, coloff := 0, screenrows := 22,
        screencols := 80, row := [mkRow [97], mkRow [99]], dirty := 5 } 1 [98]).2
      (by decide)).1,
   ((editorInsertRow_bounds_shift
      { cx := 1, cy := 3, rx := 1, rowoff := 0, coloff := 0, screenrows := 22,
        screencols := 80, row := [mkRow [97], mkRow [99]], dirty := 5 } 1 [98]).2
      (by decide)).2.2⟩

/-! ## C6: inserting a byte into a row -/

theorem editorRowInsertChar_chars (row : erow) (pos : Int) (c : Nat) (hc : c < 256) :
    (editorRowInsertChar row pos c).chars
      = row.chars.take (insertColumn row.chars.length pos) ++ [c]
          ++ row.chars.drop (insertColumn row.chars.length pos) := by
  have hm : c % 256 = c := Nat.mod_eq_of_lt hc
  unfold editorRowInsertChar insertColumn
  simp only [editorUpdateRow_chars, erow.size, hm]
  by_cases h : 0 ≤ pos ∧ pos ≤ (row.chars.length : Int)
  · have hn : ¬ (pos < 0 ∨ pos > (row.chars.length : Int)) := by omega
    simp [h, hn]
  · have hn : (pos < 0 ∨ pos > (row.chars.length : Int)) := by omega
    simp [h, hn]

/-- C6. `editorRowInsertChar(row, at, c)` yields `s[0..p) ++ [c] ++ s[p..|s|)` where
`p = at` when `0 ≤ at ≤ |s|` and `p = |s|` for every other `at`; the size is `|s| + 1`
and the render form is the tab expansion of the new content. -/
theorem editorRowInsertChar_clamped (row : erow) (pos : Int) (c : Nat) (hc : c < 256) :
    (editorRowInsertChar row pos c).chars
      = row.chars.take (insertColumn row.chars.length pos) ++ [c]
          ++ row.chars.drop (insertColumn row.chars.length pos) ∧
    (editorRowInsertChar row pos c).size = row.size + 1 ∧
    (editorRowInsertChar row pos c).render = expandTabs (editorRowInsertChar row pos c).chars ∧
    (editorRowInsertChar row pos c).rsize
      = ((editorRowInsertChar row pos c).render.length : Int) := by
  refine ⟨editorRowInsertChar_chars row pos c hc, ?_, ?_, ?_⟩
  · have hle : insertColumn row.chars.length pos ≤ row.chars.length := by
      unfold insertColumn; split <;> omega
    simp only [erow.size, editorRowInsertChar_chars row pos c hc, List.length_append,
      List.length_take, List.length_drop, List.length_singleton]
    omega
  · exact editorUpdateRow_render_eq _
  · exact editorUpdateRow_rsize_eq _

theorem editorRowInsertChar_clamped_witness :
    (editorRowInsertChar (mkRow [97, 98]) (-5) 99).chars = [97, 98, 99] ∧
    (editorRowInsertChar (mkRow [97, 98]) 1 99).chars = [97, 99, 98] ∧
    (editorRowInsertChar (mkRow [97, 98]) 7 9).render = [97, 98, 32, 32, 32, 32, 32, 32] :=
  ⟨(editorRowInsertChar_clamped (mkRow [97, 98]) (-5) 99 (by decide)).1,
   (editorRowInsertChar_clamped (mkRow [97, 98]) 1 99 (by decide)).1,
   (editorRowInsertChar_clamped (mkRow [97, 98]) 7 9 (by decide)).2.2.1⟩

/-! ## C7: typing in sequence -/

theorem editorInsertChar_at_end (E : editorConfig) (i : Nat) (r : erow) (c : Nat)
    (hc : c < 256) (hy : E.cy = i + 3) (hr : E.row[i]? = some r)
    (hx : E.cx = r.chars.length + 1) :
    ∃ E1 r1, editorInsertChar E c = some E1 ∧ E1.cy = E.cy ∧ E1.cx = E.cx + 1 ∧
      E1.row[i]? = some r1 ∧ r1.chars = r.chars ++ [c] ∧
      contents E1 = (contents E).set i (r.chars ++ [c]) := by
  have hlt : i < E.row.length := (List.getElem?_eq_some.mp hr).1
  have hne : ¬ ((i : Int) = E.numrows) := by
    simp only [editorConfig.numrows]; omega
  have hidx : E.cy - CURSOR_YBEGIN = (i : Int) := by simp [hy, CURSOR_YBEGIN]
  have hcol : E.cx - CURSOR_XBEGIN = (r.chars.length : Int) := by simp [hx, CURSOR_XBEGIN]
  have hch : (editorRowInsertChar r (r.chars.length : Int) c).chars = r.chars ++ [c] := by
    rw [editorRowInsertChar_chars r _ c hc]
    simp [insertColumn]
  refine ⟨{ setRow E (i : Int) (editorRowInsertChar r (r.chars.length : Int) c) with
              cx := E.cx + 1, dirty := E.dirty + 1 },
    editorRowInsertChar r (r.chars.length : Int) c, ?_, ?_, ?_, ?_, hch, ?_⟩
  · unfold editorInsertChar
    simp only [hidx, if_neg hne, rowAt_nat, hr, hcol]
  · rfl
  · rfl
  · simp [setRow, hlt]
  · have := contents_setRow E i (editorRowInsertChar r (r.chars.length : Int) c)
    rw [hch] at this
    exact this

theorem typeChars_existing (cs : List Nat) : ∀ (E : editorConfig) (i : Nat) (r : erow),
    (∀ c ∈ cs, c < 256) → E.cy = i + 3 → E.row[i]? = some r →
    E.cx = r.chars.length + 1 →
    ∃ E1, typeChars cs E = some E1 ∧ E1.cy = E.cy ∧ E1.cx = E.cx + cs.length ∧
      contents E1 = (contents E).set i (r.chars ++ cs) := by
  induction cs with
  | nil =>
    intro E i r _ _ hr _
    refine ⟨E, rfl, rfl, by simp, ?_⟩
    have : (contents E)[i]? = some r.chars := by simp [contents_getElem?, hr]
    simp only [List.append_nil]
    exact (set_of_getElem? _ _ _ this).symm
  | cons c cs ih =>
    intro E i r hb hy hr hx
    obtain ⟨E1, r1, h1, hy1, hx1, hr1, hch, hcont⟩ :=
      editorInsertChar_at_end E i r c (hb c (by simp)) hy hr hx
    have hx1' : E1.cx = r1.chars.length + 1 := by
      rw [hx1, hx, hch]; simp
    obtain ⟨E2, h2, hy2, hx2, hcont2⟩ :=
      ih E1 i r1 (fun d hd => hb d (by simp [hd])) (by rw [hy1, hy]) hr1 hx1'
    refine ⟨E2, ?_, ?_, ?_, ?_⟩
    · simp [typeChars, h1, h2]
    · rw [hy2, hy1]
    · rw [hx2, hx1]; simp; omega
    · rw [hcont2, hcont, hch]; simp

theorem editorInsertChar_past_end (E : editorConfig) (c : Nat)
    (h : E.cy - CURSOR_YBEGIN = E.numrows) :
    editorInsertChar E c = editorInsertChar (editorInsertRow E E.numrows []) c := by
  have hn : ¬ (E.numrows < 0 ∨ E.numrows > E.numrows) := by
    simp only [editorConfig.numrows]; omega
  have h2 : ¬ ((editorInsertRow E E.numrows []).cy - CURSOR_YBEGIN
      = (editorInsertRow E E.numrows []).numrows) := by
    have hnum := numrows_editorInsertRow E E.numrows [] (by
      simp only [editorConfig.numrows]; omega)
    have hcy : (editorInsertRow E E.numrows []).cy = E.cy := by
      unfold editorInsertRow; rw [if_neg hn]
    rw [hnum, hcy, h]; omega
  conv_lhs => unfold editorInsertChar
  conv_rhs => unfold editorInsertChar
  simp only [if_pos h, if_neg h2]

/-- C7. Typing `c1 .. cn` with `editorInsertChar` from column 0 of an empty line `i`,
or from the position one past the last line, leaves line `i` with content `c1 .. cn` in
that order and the cursor at logical column `n` of the same line; no other line
changes, and a line is created only when the cursor started past the end. -/
theorem typeChars_in_order (E : editorConfig) (i : Nat) (cs : List Nat)
    (hb : ∀ c ∈ cs, c < 256) (hx : E.cx = CURSOR_XBEGIN) (hy : E.cy = i + CURSOR_YBEGIN)
    (hline : (∃ r, E.row[i]? = some r ∧ r.chars = []) ∨ (i : Int) = E.numrows) :
    ∃ E1, typeChars cs E = some E1 ∧
      E1.cy = E.cy ∧ E1.cx = CURSOR_XBEGIN + cs.length ∧
      (cs ≠ [] → (contents E1)[i]? = some cs) ∧
      contents E1 = (if cs = [] then contents E
                     else (contents E).take i ++ [cs] ++ (contents E).drop (i + 1)) := by
  simp only [CURSOR_XBEGIN, CURSOR_YBEGIN] at hx hy ⊢
  rcases hline with ⟨r, hr, hempty⟩ | hpast
  · obtain ⟨E1, h1, hy1, hx1, hc1⟩ :=
      typeChars_existing cs E i r hb hy hr (by rw [hx, hempty]; simp)
    have hlt : i < (contents E).length := by
      have := (List.getElem?_eq_some.mp hr).1
      simpa [contents] using this
    rw [hempty, List.nil_append] at hc1
    refine ⟨E1, h1, hy1, by rw [hx1, hx], ?_, ?_⟩
    · intro _
      rw [hc1, List.getElem?_set_self hlt]
    · by_cases hcs : cs = []
      · subst hcs
        have hget : (contents E)[i]? = some [] := by simp [contents_getElem?, hr, hempty]
        rw [hc1, if_pos rfl, set_of_getElem? _ _ _ hget]
      · rw [hc1, if_neg hcs, List.set_eq_take_append_cons_drop, if_pos hlt]
        simp
  · cases cs with
    | nil => exact ⟨E, rfl, rfl, by simp [hx], by simp, by simp⟩
    | cons c cs =>
      have hlen : i = E.row.length := by
        simp only [editorConfig.numrows] at hpast; omega
      have hn : ¬ (E.numrows < 0 ∨ E.numrows > E.numrows) := by
        simp only [editorConfig.numrows]; omega
      have hrow : (editorInsertRow E E.numrows []).row = E.row ++ [mkRow []] := by
        unfold editorInsertRow
        rw [if_neg hn]
        simp [editorConfig.numrows, mkRow]
      have hcy : (editorInsertRow E E.numrows []).cy = E.cy := by
        unfold editorInsertRow; rw [if_neg hn]
      have hcx : (editorInsertRow E E.numrows []).cx = E.cx := by
        unfold editorInsertRow; rw [if_neg hn]
      have hget : (editorInsertRow E E.numrows []).row[i]? = some (mkRow []) := by
        rw [hrow, hlen]; simp
      obtain ⟨E1, h1, hy1, hx1, hc1⟩ :=
        typeChars_existing (c :: cs) (editorInsertRow E E.numrows []) i (mkRow []) hb
          (by rw [hcy, hy]) hget (by rw [hcx, hx]; simp [mkRow_chars])
      have hfirst : typeChars (c :: cs) E
          = typeChars (c :: cs) (editorInsertRow E E.numrows []) := by
        have := editorInsertChar_past_end E c (by rw [hy, ← hpast]; simp [CURSOR_YBEGIN])
        simp only [typeChars, this]
      have hcont : contents (editorInsertRow E E.numrows []) = contents E ++ [[]] := by
        simp [contents, hrow, mkRow_chars]
      have hclen : (contents E).length = i := by simp [contents, hlen]
      have hfinal : contents E1 = contents E ++ [c :: cs] := by
        rw [hc1, hcont, mkRow_chars, List.nil_append,
          List.set_append_right _ _ (by omega), hclen]
        simp
      refine ⟨E1, by rw [hfirst, h1], by rw [hy1, hcy], by rw [hx1, hcx, hx], ?_, ?_⟩
      · intro _
        rw [hfinal, ← hclen]; simp
      · rw [hfinal, if_neg (by simp), ← hclen]
        simp

theorem typeChars_in_order_witness :
    (typeChars [104, 105] (initEditor 24 80)).map (fun E1 => (contents E1, E1.cx, E1.cy))
      = some ([[104, 105]], 3, 3) := by
  obtain ⟨E1, h1, hy, hx, _, hc⟩ :=
    typeChars_in_order (initEditor 24 80) 0 [104, 105] (by decide) rfl rfl (Or.inr rfl)
  rw [h1]
  simp only [Option.map_some', hy, hx, hc]
  decide

/-! ## C8: Backspace at column 0 -/

/-- C8 (code bug). Backspace at column 0 joins the two lines but moves the cursor up
only when `E.cy - E.rowoff > CURSOR_YBEGIN`.  In a window of 6 rows, loading the three
lines `a`, `b`, `c` and pressing the down arrow puts the cursor on line 1 with
`rowoff = 1` after the next `editScroll`; `editorDelChar` then joins `a` and `b` into
line 0 and leaves the cursor on line 1 (now `c`) at column 1, not on line 0. -/
theorem editorDelChar_join_keeps_cursor_line :
    (runKeys id 0 6 80 [ARROW_DOWN]
        (Step.running (editorOpen (initEditor 6 80) [97, 10, 98, 10, 99, 10]) BEDIT_QUIT_TIMES)
      = some (Step.running
          { cx := 1, cy := 4, rx := 1, rowoff := 0, coloff := 0, screenrows := 4,
            screencols := 80, row := [mkRow [97], mkRow [98], mkRow [99]], dirty := 0 } 1)) ∧
    editScroll 0
        { cx := 1, cy := 4, rx := 1, rowoff := 0, coloff := 0, screenrows := 4,
          screencols := 80, row := [mkRow [97], mkRow [98], mkRow [99]], dirty := 0 }
      = some
          { cx := 1, cy := 4, rx := 1, rowoff := 1, coloff := 0, screenrows := 4,
            screencols := 80, row := [mkRow [97], mkRow [98], mkRow [99]], dirty := 0 } ∧
    editorDelChar
        { cx := 1, cy := 4, rx := 1, rowoff := 1, coloff := 0, screenrows := 4,
          screencols := 80, row := [mkRow [97], mkRow [98], mkRow [99]], dirty := 0 }
      = some
          { cx := 2, cy := 4, rx := 1, rowoff := 1, coloff := 0, screenrows := 4,
            screencols := 80, row := [mkRow [97, 98], mkRow [99]], dirty := 2 } := by
  decide

/-! ## C9: Enter at the end of a line -/

/-- C9 (code bug). Enter at the end of a non-empty line inserts no line: neither branch
of `editorInsertNewline` is taken when the column equals the size, and only the cursor
moves.  After loading the lines `ab` and `c` and pressing the right arrow twice, Enter
leaves the two lines as they are and puts the cursor at column 0 of the old line 1. -/
theorem editorInsertNewline_at_end_inserts_nothing :
    runKeys id 0 24 80 [ARROW_RIGHT, ARROW_RIGHT]
        (Step.running (editorOpen (initEditor 24 80) [97, 98, 10, 99, 10]) BEDIT_QUIT_TIMES)
      = some (Step.running
          { cx := 3, cy := 3, rx := 2, rowoff := 0, coloff := 0, screenrows := 22,
            screencols := 80, row := [mkRow [97, 98], mkRow [99]], dirty := 0 } 1) ∧
    editorInsertNewline
        { cx := 3, cy := 3, rx := 2, rowoff := 0, coloff := 0, screenrows := 22,
          screencols := 80, row := [mkRow [97, 98], mkRow [99]], dirty := 0 }
      = some
          { cx := 1, cy := 4, rx := 2, rowoff := 0, coloff := 0, screenrows := 22,
            screencols := 80, row := [mkRow [97, 98], mkRow [99]], dirty := 0 } := by
  decide

/-! ## C10: the Delete key -/

/-- C10 (code bug). At the end of the last line the Delete key deletes backward:
`editorMoveCursor(ARROW_RIGHT)` does not move (its wrap test is `E.cy < E.numrows`), and
`editorDelChar` then removes the byte before the cursor.  After typing `a`, `b` into an
empty document the cursor is at column 2 of the only line; DEL_KEY leaves the line `a`
with the cursor at column 1. -/
theorem del_key_at_end_deletes_backward :
    runKeys id 0 24 80 [97, 98] (Step.running (initEditor 24 80) BEDIT_QUIT_TIMES)
      = some (Step.running
          { cx := 3, cy := 3, rx := 2, rowoff := 0, coloff := 0, screenrows := 22,
            screencols := 80, row := [mkRow [97, 98]], dirty := 3 } 1) ∧
    editorProcessKeypress id
        { cx := 3, cy := 3, rx := 2, rowoff := 0, coloff := 0, screenrows := 22,
          screencols := 80, row := [mkRow [97, 98]], dirty := 3 } 1 DEL_KEY
      = some (Step.running
          { cx := 2, cy := 3, rx := 2, rowoff := 0, coloff := 0, screenrows := 22,
            screencols := 80, row := [mkRow [97]], dirty := 4 } 1) := by
  decide

/-! ## C11: cursor validity under key dispatch -/

/-- C11 (code bug). `PAGE_DOWN` clamps `E.cy` to `E.numrows`, without `CURSOR_YBEGIN`: on
the empty document, a valid state, the first statements leave `E.cy = 0`, the
`ARROW_DOWN` loop raises it to 2 at most (line index -1), and the closing statements of
`editorMoveCursor` read `E.row[E.cy - CURSOR_YBEGIN]` at a negative index, so the call
has no defined result.  Backspace breaks the invariant with a defined result: from the
valid state with the cursor at column 0 of line 1 of `a`, `b` and `rowoff = 1`, it leaves
the cursor at column 1 of the line one past the end. -/
theorem key_dispatch_breaks_cursor_validity :
    cursorValid (initEditor 24 80) ∧
    pageStart (initEditor 24 80) PAGE_DOWN = { initEditor 24 80 with cy := 0 } ∧
    moveSwitch { initEditor 24 80 with cy := 0 } ARROW_DOWN
      = some { initEditor 24 80 with cy := 1 } ∧
    moveSwitch { initEditor 24 80 with cy := 1 } ARROW_DOWN
      = some { initEditor 24 80 with cy := 2 } ∧
    moveSwitch { initEditor 24 80 with cy := 2 } ARROW_DOWN
      = some { initEditor 24 80 with cy := 2 } ∧
    clampCx { initEditor 24 80 with cy := 1 } = none ∧
    editorProcessKeypress id (initEditor 24 80) BEDIT_QUIT_TIMES PAGE_DOWN = none ∧
    cursorValid
        { cx := 1, cy := 4, rx := 1, rowoff := 1, coloff := 0, screenrows := 4,
          screencols := 80, row := [mkRow [97], mkRow [98]], dirty := 0 } ∧
    editorProcessKeypress id
        { cx := 1, cy := 4, rx := 1, rowoff := 1, coloff := 0, screenrows := 4,
          screencols := 80, row := [mkRow [97], mkRow [98]], dirty := 0 }
        BEDIT_QUIT_TIMES BACKSPACE
      = some (Step.running
          { cx := 2, cy := 4, rx := 1, rowoff := 1, coloff := 0, screenrows := 4,
            screencols := 80, row := [mkRow [97, 98]], dirty := 2 } 1) ∧
    ¬ cursorValid
        { cx := 2, cy := 4, rx := 1, rowoff := 1, coloff := 0, screenrows := 4,
          screencols := 80, row := [mkRow [97, 98]], dirty := 2 } := by
  decide

/-! ## C12: the viewport -/

theorem rowAt_in_range (E : editorConfig) (i : Int) (h0 : 0 ≤ i) (h1 : i < E.numrows) :
    ∃ r, rowAt E i = some r := by
  have hlt : i.toNat < E.row.length := by
    simp only [editorConfig.numrows] at h1; omega
  refine ⟨E.row[i.toNat], ?_⟩
  have hn : ¬ i < 0 := by omega
  simp [rowAt, hn, List.getElem?_eq_getElem hlt]

theorem editScroll_eq (pre : Nat) (E E1 : editorConfig) (h : editScroll pre E = some E1) :
    ∃ rx : Int,
      (if E.cy - CURSOR_YBEGIN < E.numrows then
        (rowAt E (E.cy - CURSOR_YBEGIN)).map (fun r => editorRowCxToRx pre r E.cx)
       else some CURSOR_XBEGIN) = some rx ∧
      E1 = { E with
        rx := rx,
        rowoff :=
          (if (if E.cy < E.rowoff then E.cy else E.rowoff) + E.screenrows ≤ E.cy then
            E.cy - E.screenrows + 1
           else (if E.cy < E.rowoff then E.cy else E.rowoff)),
        coloff :=
          (if (if rx < E.coloff then rx else E.coloff) + E.screencols ≤ rx then
            rx - E.screencols + 1
           else (if rx < E.coloff then rx else E.coloff)) } := by
  unfold editScroll at h
  simp only at h
  split at h
  · exact absurd h (by simp)
  · rename_i rx hrx
    refine ⟨rx, hrx, ?_⟩
    simp only [Option.some.injEq] at h
    subst h
    by_cases h1 : E.cy < E.rowoff <;> by_cases h2 : rx < E.coloff <;>
      simp only [h1, h2, if_true, if_false, ge_iff_le] <;>
      split_ifs <;> rfl

/-- C12. After `editScroll`, for `screenrows ≥ 1` and `screencols ≥ 1`, the cursor lies in
the window: `rowoff ≤ cy < rowoff + screenrows` and `coloff ≤ rx < coloff + screencols`,
with `rx` the render column the function stored.  `rowoff` is either kept, or set to `cy`
(cursor above the window) or to `cy - screenrows + 1` (cursor at or below its end), and
likewise `coloff` with `rx` and `screencols`.  The function returns for every cursor
whose line index is not negative. -/
theorem editScroll_cursor_visible (pre : Nat) (E : editorConfig)
    (hr : 1 ≤ E.screenrows) (hc : 1 ≤ E.screencols) :
    (0 ≤ E.cy - CURSOR_YBEGIN → ∃ E1, editScroll pre E = some E1) ∧
    (∀ E1, editScroll pre E = some E1 →
      (E1.cy = E.cy ∧ E1.cx = E.cx ∧ E1.row = E.row ∧
        E1.screenrows = E.screenrows ∧ E1.screencols = E.screencols) ∧
      (∀ r, rowAt E (E.cy - CURSOR_YBEGIN) = some r → E1.rx = editorRowCxToRx pre r E.cx) ∧
      (E.numrows ≤ E.cy - CURSOR_YBEGIN → E1.rx = CURSOR_XBEGIN) ∧
      (E1.rowoff ≤ E1.cy ∧ E1.cy < E1.rowoff + E1.screenrows) ∧
      (E1.coloff ≤ E1.rx ∧ E1.rx < E1.coloff + E1.screencols) ∧
      (E1.rowoff = E.rowoff ∨ (E.cy < E.rowoff ∧ E1.rowoff = E.cy) ∨
        (E.rowoff + E.screenrows ≤ E.cy ∧ E1.rowoff = E.cy - E.screenrows + 1)) ∧
      (E1.coloff = E.coloff ∨ (E1.rx < E.coloff ∧ E1.coloff = E1.rx) ∨
        (E.coloff + E.screencols ≤ E1.rx ∧ E1.coloff = E1.rx - E.screencols + 1))) := by
  constructor
  · intro h0
    by_cases hlt : E.cy - CURSOR_YBEGIN < E.numrows
    · obtain ⟨r, hrow⟩ := rowAt_in_range E _ h0 hlt
      simp [editScroll, hlt, hrow]
    · simp [editScroll, hlt]
  · intro E1 h
    obtain ⟨rx, hrx, hE1⟩ := editScroll_eq pre E E1 h
    subst hE1
    refine ⟨⟨rfl, rfl, rfl, rfl, rfl⟩, ?_, ?_, ?_, ?_, ?_, ?_⟩
    · intro r hrow
      have hlt : E.cy - CURSOR_YBEGIN < E.numrows := by
        by_contra hge
        have hnone : rowAt E (E.cy - CURSOR_YBEGIN) = none := by
          unfold rowAt
          split
          · rfl
          · rw [List.get?_eq_getElem?]
            apply List.getElem?_eq_none
            simp only [editorConfig.numrows] at hge
            omega
        rw [hnone] at hrow
        exact absurd hrow (by simp)
      rw [if_pos hlt, hrow] at hrx
      simpa using hrx.symm
    · intro hge
      have hlt : ¬ E.cy - CURSOR_YBEGIN < E.numrows := by omega
      rw [if_neg hlt] at hrx
      simpa using hrx.symm
    · simp only
      split_ifs <;> omega
    · simp only
      split_ifs <;> omega
    · simp only
      split_ifs <;> omega
    · simp only
      split_ifs <;> omega

theorem editScroll_cursor_visible_witness :
    ∃ E1, editScroll 0
        { cx := 1, cy := 4, rx := 1, rowoff := 0, coloff := 0, screenrows := 4,
          screencols := 80, row := [mkRow [97], mkRow [98], mkRow [99]], dirty := 0 } = some E1 ∧
      E1.rowoff ≤ E1.cy ∧ E1.cy < E1.rowoff + E1.screenrows :=
  have h := editScroll_cursor_visible 0
    { cx := 1, cy := 4, rx := 1, rowoff := 0, coloff := 0, screenrows := 4,
      screencols := 80, row := [mkRow [97], mkRow [98], mkRow [99]], dirty := 0 }
    (by decide) (by decide)
  match h.1 (by decide) with
  | ⟨E1, h1⟩ => ⟨E1, h1, (h.2 E1 h1).2.2.2.1⟩

/-! ## C13: recognised escape sequences -/

theorem editorReadKey_skip_timeouts (n : Nat) (input : List (Option Nat)) :
    editorReadKey (List.replicate n none ++ input) = editorReadKey input := by
  induction n with
  | zero => rfl
  | succ n ih =>
    rw [List.replicate_succ, List.cons_append]
    have hstep : ∀ l : List (Option Nat), editorReadKey (none :: l) = editorReadKey l := by
      intro l; simp only [editorReadKey, waitByte]
    rw [hstep, ih]

/-- C13. After any number of timed-out reads, `editorReadKey` decodes `ESC [ X` to
`ARROW_UP`, `ARROW_DOWN`, `ARROW_RIGHT`, `ARROW_LEFT`, `HOME_KEY`, `END_KEY` for
`X = A, B, C, D, H, F`, and `ESC [ d ~` to `HOME_KEY` for `d = 1, 7`, `DEL_KEY` for 3,
`END_KEY` for `d = 4, 8`, `PAGE_UP` for 5 and `PAGE_DOWN` for 6; the input left is what
follows the sequence, so exactly its bytes are consumed. -/
theorem editorReadKey_recognised (n : Nat) (rest : List (Option Nat)) :
    editorReadKey (List.replicate n none ++ some 27 :: some 91 :: some 65 :: rest)
      = some (ARROW_UP, rest) ∧
    editorReadKey (List.replicate n none ++ some 27 :: some 91 :: some 66 :: rest)
      = some (ARROW_DOWN, rest) ∧
    editorReadKey (List.replicate n none ++ some 27 :: some 91 :: some 67 :: rest)
      = some (ARROW_RIGHT, rest) ∧
    editorReadKey (List.replicate n none ++ some 27 :: some 91 :: some 68 :: rest)
      = some (ARROW_LEFT, rest) ∧
    editorReadKey (List.replicate n none ++ some 27 :: some 91 :: some 72 :: rest)
      = some (HOME_KEY, rest) ∧
    editorReadKey (List.replicate n none ++ some 27 :: some 91 :: some 70 :: rest)
      = some (END_KEY, rest) ∧
    editorReadKey (List.replicate n none ++ some 27 :: some 91 :: some 49 :: some 126 :: rest)
      = some (HOME_KEY, rest) ∧
    editorReadKey (List.replicate n none ++ some 27 :: some 91 :: some 55 :: some 126 :: rest)
      = some (HOME_KEY, rest) ∧
    editorReadKey (List.replicate n none ++ some 27 :: some 91 :: some 51 :: some 126 :: rest)
      = some (DEL_KEY, rest) ∧
    editorReadKey (List.replicate n none ++ some 27 :: some 91 :: some 52 :: some 126 :: rest)
      = some (END_KEY, rest) ∧
    editorReadKey (List.replicate n none ++ some 27 :: some 91 :: some 56 :: some 126 :: rest)
      = some (END_KEY, rest) ∧
    editorReadKey (List.replicate n none ++ some 27 :: some 91 :: some 53 :: some 126 :: rest)
      = some (PAGE_UP, rest) ∧
    editorReadKey (List.replicate n none ++ some 27 :: some 91 :: some 54 :: some 126 :: rest)
      = some (PAGE_DOWN, rest) := by
  simp only [editorReadKey_skip_timeouts]
  refine ⟨rfl, rfl, rfl, rfl, rfl, rfl, rfl, rfl, rfl, rfl, rfl, rfl, rfl⟩

/-! ## C14: unknown escape sequences -/

/-- C14 (code bug). The branch for the second byte tests `seq[0] == '0'`, the digit
zero, where the terminal sequence starts `ESC O`: the input `ESC '0' 'H'` is decoded as
`HOME_KEY` and `ESC '0' 'F'` as `END_KEY`, not as the bare Escape key. -/
theorem editorReadKey_esc_zero_is_special :
    editorReadKey [some 27, some 48, some 72] = some (HOME_KEY, []) ∧
    editorReadKey [some 27, some 48, some 70] = some (END_KEY, []) ∧
    HOME_KEY ≠ 27 ∧ END_KEY ≠ 27 := by
  decide

/-! ## C15: literal bytes -/

/-- C15 (code bug). The key codes `ARROW_LEFT .. PAGE_DOWN` are the numbers 200 .. 208 and
`editorProcessKeypress` keeps the key in an `unsigned char`, so a literal byte in that
range is dispatched as the special key.  The byte 200 is returned by `editorReadKey` as
it is; on the line `ab` with the cursor at column 2 it is handled as `ARROW_LEFT`: the
cursor goes to column 1 and nothing is inserted.  The byte 205 is handled as `HOME_KEY`. -/
theorem literal_byte_200_moves_cursor :
    editorReadKey [some 200] = some (200, []) ∧
    editorProcessKeypress id
        { cx := 3, cy := 3, rx := 3, rowoff := 0, coloff := 0, screenrows := 22,
          screencols := 80, row := [mkRow [97, 98]], dirty := 0 } BEDIT_QUIT_TIMES 200
      = some (Step.running
          { cx := 2, cy := 3, rx := 3, rowoff := 0, coloff := 0, screenrows := 22,
            screencols := 80, row := [mkRow [97, 98]], dirty := 0 } 1) ∧
    editorProcessKeypress id
        { cx := 3, cy := 3, rx := 3, rowoff := 0, coloff := 0, screenrows := 22,
          screencols := 80, row := [mkRow [97, 98]], dirty := 0 } BEDIT_QUIT_TIMES 205
      = some (Step.running
          { cx := 1, cy := 3, rx := 3, rowoff := 0, coloff := 0, screenrows := 22,
            screencols := 80, row := [mkRow [97, 98]], dirty := 0 } 1) := by
  decide

/-! ## C16: right arrow at the end of a line -/

/-- C16 (code bug). The wrap test of `ARROW_RIGHT` is `E.cy < E.numrows`, with `E.cy`
still carrying `CURSOR_YBEGIN`, so the cursor wraps only from lines `i` with
`i + 3 < numrows`.  In the two-line document `ab`, `c` with the cursor at the end of
line 0, `editorMoveCursor(ARROW_RIGHT)` leaves the cursor where it is. -/
theorem arrow_right_does_not_wrap :
    runKeys id 0 24 80 [ARROW_RIGHT, ARROW_RIGHT]
        (Step.running (editorOpen (initEditor 24 80) [97, 98, 10, 99, 10]) BEDIT_QUIT_TIMES)
      = some (Step.running
          { cx := 3, cy := 3, rx := 2, rowoff := 0, coloff := 0, screenrows := 22,
            screencols := 80, row := [mkRow [97, 98], mkRow [99]], dirty := 0 } 1) ∧
    editorMoveCursor
        { cx := 3, cy := 3, rx := 2, rowoff := 0, coloff := 0, screenrows := 22,
          screencols := 80, row := [mkRow [97, 98], mkRow [99]], dirty := 0 } ARROW_RIGHT
      = some
          { cx := 3, cy := 3, rx := 2, rowoff := 0, coloff := 0, screenrows := 22,
            screencols := 80, row := [mkRow [97, 98], mkRow [99]], dirty := 0 } := by
  decide

/-! ## C17: left arrow at column 0 -/

/-- C17 (code bug). With `rowoff > 0` the wrap of `ARROW_LEFT` stores
`E.cx = E.row[..].size`, without `CURSOR_XBEGIN`: the cursor lands one column before
the end of the previous line.  In a window of 6 rows, after loading `a`, `b`, `c` and
one down arrow, `editScroll` sets `rowoff = 1`; `editorMoveCursor(ARROW_LEFT)` from
column 0 of line 1 then gives line 0 at logical column 0, not 1.  When the previous line
is empty the logical column is -1. -/
theorem arrow_left_wrap_one_short :
    editScroll 0
        { cx := 1, cy := 4, rx := 1, rowoff := 0, coloff := 0, screenrows := 4,
          screencols := 80, row := [mkRow [97], mkRow [98], mkRow [99]], dirty := 0 }
      = some
          { cx := 1, cy := 4, rx := 1, rowoff := 1, coloff := 0, screenrows := 4,
            screencols := 80, row := [mkRow [97], mkRow [98], mkRow [99]], dirty := 0 } ∧
    editorMoveCursor
        { cx := 1, cy := 4, rx := 1, rowoff := 1, coloff := 0, screenrows := 4,
          screencols := 80, row := [mkRow [97], mkRow [98], mkRow [99]], dirty := 0 } ARROW_LEFT
      = some
          { cx := 1, cy := 3, rx := 1, rowoff := 0, coloff := 0, screenrows := 4,
            screencols := 80, row := [mkRow [97], mkRow [98], mkRow [99]], dirty := 0 } ∧
    editorMoveCursor
        { cx := 1, cy := 4, rx := 1, rowoff := 1, coloff := 0, screenrows := 4,
          screencols := 80, row := [mkRow [], mkRow [98], mkRow [99]], dirty := 0 } ARROW_LEFT
      = some
          { cx := 0, cy := 3, rx := 1, rowoff := 0, coloff := 0, screenrows := 4,
            screencols := 80, row := [mkRow [], mkRow [98], mkRow [99]], dirty := 0 } := by
  decide

/-! ## C18: Home and End -/

/-- C18 (code bug). The `END_KEY` case is guarded by `E.cy < E.numrows`, with `E.cy` still
carrying `CURSOR_YBEGIN`, so End works only on lines `i` with `i + 3 < numrows`.  After
loading the one-line file `ab` the cursor is at column 0 of line 0, and `END_KEY` leaves
it there. -/
theorem end_key_does_not_move :
    editorProcessKeypress id (editorOpen (initEditor 24 80) [97, 98, 10]) BEDIT_QUIT_TIMES
        END_KEY
      = some (Step.running
          { cx := 1, cy := 3, rx := 1, rowoff := 0, coloff := 0, screenrows := 22,
            screencols := 80, row := [mkRow [97, 98]], dirty := 0 } 1) := by
  decide

/-! ## C19: the quit gate -/

theorem editorProcessKeypress_other_key (save : editorConfig → editorConfig)
    (E : editorConfig) (q : Int) (c : Nat) (st : Step) (hc : c ≠ CTRL_KEY 113)
    (h : editorProcessKeypress save E q c = some st) :
    ∃ E1, st = Step.running E1 BEDIT_QUIT_TIMES := by
  unfold editorProcessKeypress at h
  simp only [if_neg hc] at h
  split_ifs at h
  all_goals first
    | (simp only [Option.map_eq_some'] at h
       obtain ⟨E1, _, h1⟩ := h
       exact ⟨E1, h1.symm⟩)
    | (simp only [Option.some.injEq] at h
       exact ⟨_, h.symm⟩)
    | (split at h
       · exact absurd h (by simp)
       · first
           | (simp only [Option.map_eq_some'] at h
              obtain ⟨E1, _, h1⟩ := h
              exact ⟨E1, h1.symm⟩)
           | (simp only [Option.some.injEq] at h
              exact ⟨_, h.symm⟩))

theorem editorProcessKeypress_quit (save : editorConfig → editorConfig)
    (E : editorConfig) (q : Int) :
    editorProcessKeypress save E q (CTRL_KEY 113)
      = if E.dirty ≠ 0 ∧ q > 0 then
          some (Step.running (editorSetStatusMessage E (quitWarning q)) (q - 1))
        else some Step.exited := by
  unfold editorProcessKeypress
  rw [if_neg (by decide), if_pos rfl]

theorem quitWarning_fits :
    (quitWarning BEDIT_QUIT_TIMES).take 79 = quitWarning BEDIT_QUIT_TIMES := by
  decide

theorem editorRefreshScreen_dirty (pre : Nat) (rows cols : Int) (E E1 : editorConfig)
    (h : editorRefreshScreen pre rows cols E = some E1) : E1.dirty = E.dirty := by
  unfold editorRefreshScreen at h
  simp only [Option.map_eq_some'] at h
  obtain ⟨E2, h2, h3⟩ := h
  obtain ⟨rx, _, hE2⟩ := editScroll_eq pre E E2 h2
  subst hE2
  subst h3
  rfl

theorem runKeys_exited (save : editorConfig → editorConfig) (pre : Nat) (rows cols : Int)
    (ks : List Nat) : runKeys save pre rows cols ks Step.exited = some Step.exited := by
  cases ks <;> rfl

theorem runKeys_append (save : editorConfig → editorConfig) (pre : Nat) (rows cols : Int)
    (ks ks2 : List Nat) : ∀ st : Step,
    runKeys save pre rows cols (ks ++ ks2) st
      = (runKeys save pre rows cols ks st).bind (runKeys save pre rows cols ks2) := by
  induction ks with
  | nil => intro st; simp [runKeys]
  | cons k ks ih =>
    intro st
    cases st with
    | exited => simp [runKeys, runKeys_exited]
    | running E q =>
      simp only [List.cons_append, runKeys]
      cases editorRefreshScreen pre rows cols E with
      | none => rfl
      | some E1 =>
        simp only
        cases editorProcessKeypress save E1 q k with
        | none => rfl
        | some st1 => simp only; exact ih st1

theorem runKeys_single (save : editorConfig → editorConfig) (pre : Nat) (rows cols : Int)
    (k : Nat) (E : editorConfig) (q : Int) (st : Step)
    (h : runKeys save pre rows cols [k] (Step.running E q) = some st) :
    ∃ E1, editorRefreshScreen pre rows cols E = some E1 ∧
      editorProcessKeypress save E1 q k = some st := by
  simp only [runKeys] at h
  cases hr : editorRefreshScreen pre rows cols E with
  | none => rw [hr] at h; exact absurd h (by simp)
  | some E1 =>
    rw [hr] at h
    simp only at h
    cases hp : editorProcessKeypress save E1 q k with
    | none => rw [hp] at h; exact absurd h (by simp)
    | some st1 =>
      rw [hp] at h
      simp only [runKeys] at h
      exact ⟨E1, rfl, by rw [hp, h]⟩

/-- The counter after a run from `BEDIT_QUIT_TIMES`: it is 0 when the last key was the
quit key, and `BEDIT_QUIT_TIMES` again otherwise. -/
theorem runKeys_quit_times (save : editorConfig → editorConfig) (pre : Nat) (rows cols : Int)
    (E0 : editorConfig) (ks : List Nat) : ∀ (E : editorConfig) (q : Int),
    runKeys save pre rows cols ks (Step.running E0 BEDIT_QUIT_TIMES) = some (Step.running E q) →
    (q = BEDIT_QUIT_TIMES ∧ ks.getLast? ≠ some (CTRL_KEY 113)) ∨
    (q = 0 ∧ ks.getLast? = some (CTRL_KEY 113)) := by
  induction ks using List.reverseRecOn with
  | nil =>
    intro E q h
    simp only [runKeys, Option.some.injEq, Step.running.injEq] at h
    exact Or.inl ⟨h.2.symm, by simp⟩
  | append_singleton ks k ih =>
    intro E q h
    rw [runKeys_append] at h
    cases hprev : runKeys save pre rows cols ks (Step.running E0 BEDIT_QUIT_TIMES) with
    | none => rw [hprev] at h; exact absurd h (by simp)
    | some st1 =>
      rw [hprev] at h
      simp only [Option.some_bind] at h
      cases st1 with
      | exited => rw [runKeys_exited] at h; exact absurd h (by simp)
      | running E1 q1 =>
        obtain ⟨E2, _, hp⟩ := runKeys_single save pre rows cols k E1 q1 _ h
        by_cases hk : k = CTRL_KEY 113
        · subst hk
          rw [editorProcessKeypress_quit] at hp
          split_ifs at hp with hw
          · simp only [Option.some.injEq, Step.running.injEq] at hp
            rcases ih E1 q1 hprev with ⟨h1, _⟩ | ⟨h0, _⟩
            · right
              refine ⟨?_, by simp⟩
              rw [← hp.2, h1]; rfl
            · omega
          · exact absurd hp (by simp)
        · obtain ⟨E3, h3⟩ := editorProcessKeypress_other_key save E2 q1 k _ hk hp
          simp only [Step.running.injEq] at h3
          refine Or.inl ⟨h3.2, ?_⟩
          rw [List.getLast?_append, List.getLast?_singleton]
          simp only [Option.or, ne_eq, Option.some.injEq]
          exact hk

/-- C19. The quit gate over `(dirty, quit_times)`.  With unsaved changes a quit key
pressed while the counter is `BEDIT_QUIT_TIMES` does not exit, stores the warning and
leaves the counter at 0; the next quit key exits; every other key that is handled puts
the counter back to `BEDIT_QUIT_TIMES` without exiting; with `dirty = 0` one quit key
exits.  Hence in every run of the main loop from the initial counter, a quit key pressed
with unsaved changes exits when the key before it was the quit key too, and otherwise
only stores the warning.  The warning stored is the 77 bytes of the text
`ESC [1;31m WARNING!! File has unsaved changes. Press CTRL+Q 1 more time to quit.`,
given byte by byte in the statement. -/
theorem quit_confirmation_gate (save : editorConfig → editorConfig) (pre : Nat)
    (rows cols : Int) :
    (∀ E : editorConfig, E.dirty ≠ 0 →
      editorProcessKeypress save E BEDIT_QUIT_TIMES (CTRL_KEY 113)
        = some (Step.running { E with statusmsg := quitWarning BEDIT_QUIT_TIMES }
            (BEDIT_QUIT_TIMES - 1))) ∧
    (∀ E : editorConfig,
      editorProcessKeypress save E (BEDIT_QUIT_TIMES - 1) (CTRL_KEY 113) = some Step.exited) ∧
    (∀ (E : editorConfig) (q : Int) (c : Nat) (st : Step), c ≠ CTRL_KEY 113 →
      editorProcessKeypress save E q c = some st →
      ∃ E1, st = Step.running E1 BEDIT_QUIT_TIMES) ∧
    (∀ (E : editorConfig) (q : Int), E.dirty = 0 →
      editorProcessKeypress save E q (CTRL_KEY 113) = some Step.exited) ∧
    (∀ (E0 : editorConfig) (ks : List Nat) (E : editorConfig) (q : Int) (E1 : editorConfig),
      runKeys save pre rows cols ks (Step.running E0 BEDIT_QUIT_TIMES)
        = some (Step.running E q) →
      E.dirty ≠ 0 →
      editorRefreshScreen pre rows cols E = some E1 →
      (ks.getLast? = some (CTRL_KEY 113) →
        editorProcessKeypress save E1 q (CTRL_KEY 113) = some Step.exited) ∧
      (ks.getLast? ≠ some (CTRL_KEY 113) →
        editorProcessKeypress save E1 q (CTRL_KEY 113)
          = some (Step.running { E1 with statusmsg := quitWarning BEDIT_QUIT_TIMES }
              (BEDIT_QUIT_TIMES - 1)))) ∧
    (quitWarning BEDIT_QUIT_TIMES =
      [27, 91, 49, 59, 51, 49, 109, 32, 87, 65, 82, 78, 73, 78, 71, 33, 33, 32, 70, 105,
       108, 101, 32, 104, 97, 115, 32, 117, 110, 115, 97, 118, 101, 100, 32, 99, 104, 97,
       110, 103, 101, 115, 46, 32, 80, 114, 101, 115, 115, 32, 67, 84, 82, 76, 43, 81, 32,
       49, 32, 109, 111, 114, 101, 32, 116, 105, 109, 101, 32, 116, 111, 32, 113, 117, 105,
       116, 46]) ∧
    (quitWarning BEDIT_QUIT_TIMES).length = 77 ∧
    quitWarning BEDIT_QUIT_TIMES ≠ [] := by
  refine ⟨?_, ?_, ?_, ?_, ?_, by decide, by decide, by decide⟩
  · intro E hd
    rw [editorProcessKeypress_quit, if_pos ⟨hd, by decide⟩]
    simp only [editorSetStatusMessage, quitWarning_fits]
  · intro E
    rw [editorProcessKeypress_quit, if_neg (by simp [BEDIT_QUIT_TIMES])]
  · intro E q c st hc h
    exact editorProcessKeypress_other_key save E q c st hc h
  · intro E q hd
    rw [editorProcessKeypress_quit, if_neg (by simp [hd])]
  · intro E0 ks E q E1 hrun hd href
    have hd1 : E1.dirty ≠ 0 := by
      rw [editorRefreshScreen_dirty pre rows cols E E1 href]; exact hd
    rw [editorProcessKeypress_quit]
    rcases runKeys_quit_times save pre rows cols E0 ks E q hrun with ⟨h1, hlast⟩ | ⟨h0, hlast⟩
    · rw [if_pos ⟨hd1, by rw [h1]; decide⟩, h1]
      refine ⟨fun h => absurd h hlast, fun _ => ?_⟩
      simp only [editorSetStatusMessage, quitWarning_fits]
    · rw [if_neg (by rw [h0]; simp)]
      exact ⟨fun _ => rfl, fun h => absurd hlast h⟩

theorem quit_confirmation_gate_witness :
    editorProcessKeypress id
        { cx := 2, cy := 3, rx := 2, rowoff := 0, coloff := 0, screenrows := 22,
          screencols := 80, row := [mkRow [97]], dirty := 2,
          statusmsg := quitWarning 1 } 0 (CTRL_KEY 113) = some Step.exited ∧
    editorProcessKeypress id
        { cx := 2, cy := 3, rx := 2, rowoff := 0, coloff := 0, screenrows := 22,
          screencols := 80, row := [mkRow [97]], dirty := 2 } BEDIT_QUIT_TIMES (CTRL_KEY 113)
      = some (Step.running
          { cx := 2, cy := 3, rx := 2, rowoff := 0, coloff := 0, screenrows := 22,
            screencols := 80, row := [mkRow [97]], dirty := 2,
            statusmsg := quitWarning BEDIT_QUIT_TIMES } (BEDIT_QUIT_TIMES - 1)) :=
  ⟨((quit_confirmation_gate id 0 24 80).2.2.2.2.1 (initEditor 24 80) [97, CTRL_KEY 113]
      { cx := 2, cy := 3, rx := 2, rowoff := 0, coloff := 0, screenrows := 22,
        screencols := 80, row := [mkRow [97]], dirty := 2, statusmsg := quitWarning 1 } 0
      { cx := 2, cy := 3, rx := 2, rowoff := 0, coloff := 0, screenrows := 22,
        screencols := 80, row := [mkRow [97]], dirty := 2, statusmsg := quitWarning 1 }
      (by decide) (by decide) (by decide)).1 (by decide),
   (quit_confirmation_gate id 0 24 80).1
      { cx := 2, cy := 3, rx := 2, rowoff := 0, coloff := 0, screenrows := 22,
        screencols := 80, row := [mkRow [97]], dirty := 2 } (by decide)⟩

/-! ## C20: line endings at load time -/

/-- C20 (code bug). The strip loop of `editorOpen` tests `line[linelen] == '\r'`, the byte
after the end of the line, instead of `line[linelen - 1]`: a carriage return in front of
the newline is never removed.  The raw line `abc\r\n` is stored as `abc\r`. -/
theorem editorOpen_keeps_carriage_return :
    getlines [97, 98, 99, 13, 10] = [[97, 98, 99, 13, 10]] ∧
    stripLineEnd ([97, 98, 99, 13, 10] ++ [0]) 5 = 4 ∧
    contents (editorOpen (initEditor 24 80) [97, 98, 99, 13, 10]) = [[97, 98, 99, 13]] := by
  decide

/-! ## C21: the size of the render buffer -/

theorem renderLoop_append (p q : List Nat) : ∀ st : Nat × List Nat,
    renderLoop (p ++ q) st = renderLoop q (renderLoop p st) := by
  induction p with
  | nil => intro st; rfl
  | cons c cs ih =>
    intro st
    obtain ⟨idx, r⟩ := st
    have hcons : (c :: cs) ++ q = c :: (cs ++ q) := rfl
    rw [hcons]
    by_cases hc : c = 9
    · simp only [renderLoop, hc, if_true]; exact ih _
    · simp only [renderLoop, hc, if_false]; exact ih _

end BeDIT
